import Mathlib

/-!
Shallow embedding of the include-fixer core
(`src/include-fixer/IncludeFixer.cpp`): the per-file resolution state of the
`Action` class, its `query` step, the two sema callbacks
(`CorrectTypo`, `MaybeDiagnoseMissingCompleteType`), include-path
minimization (`minimizeInclude`), context building
(`getIncludeFixerContext`) and edit generation
(`createInsertHeaderReplacements`).

External collaborators (the symbol index, the file manager, header search,
cleanup/format passes) are modelled as function-valued parameters, matching
the single-threaded callback architecture of the source.
-/

namespace IncludeFixer

/-- `tooling::Range`: a byte offset/length pair in the source buffer. -/
structure Range where
  offset : Nat
  length : Nat
deriving DecidableEq, Repr

/-- One row of the external symbol index
(`find_all_symbols::SymbolInfo`): name, kind, declaring file path, line,
enclosing contexts and occurrence count. The kind and context tags are
opaque payload here (carried through unchanged), modelled as `Nat`. -/
structure SymbolInfo where
  name : String
  symbolKind : Nat
  filePath : String
  lineNumber : Nat
  contexts : List (Nat × String)
  numOccurrences : Nat
deriving DecidableEq, Repr

/-- The mutable per-file state of `Action`: the queried symbol, its scoped
qualifiers, the replacement range of the first discovered symbol, and the
accumulated matched symbols. -/
structure ActionState where
  QuerySymbol : String
  SymbolScopedQualifiers : String
  QuerySymbolRange : Range
  MatchedSymbols : List SymbolInfo
deriving DecidableEq, Repr

/-- The state of a freshly constructed `Action`: empty strings, a default
(zero) range and no matched symbols. -/
def initialActionState : ActionState :=
  { QuerySymbol := ""
    SymbolScopedQualifiers := ""
    QuerySymbolRange := ⟨0, 0⟩
    MatchedSymbols := [] }

/-- `Action::query`. The symbol index (`SymbolIndexMgr.search`) is passed in
as a function. Returns `none` when the `assert(!Query.empty())` at the head
of the function fails (checked-build abort), otherwise `some` of the C++
return value paired with the updated state. Mirrors the source order:
assert, then the already-matched guard, then the field assignments, then
the two-phase index lookup. -/
def query (search : String → List SymbolInfo) (s : ActionState)
    (Query ScopedQualifiers : String) (range : Range) :
    Option (Bool × ActionState) :=
  if Query.isEmpty then
    none
  else if !s.MatchedSymbols.isEmpty then
    some (false, s)
  else
    let s1 : ActionState :=
      { s with
        QuerySymbol := Query
        QuerySymbolRange := range
        SymbolScopedQualifiers := ScopedQualifiers }
    let QueryString := ScopedQualifiers ++ Query
    let ms := search QueryString
    let ms :=
      if ms.isEmpty && !ScopedQualifiers.isEmpty then search Query else ms
    some (!ms.isEmpty, { s1 with MatchedSymbols := ms })

/-- `Action::MaybeDiagnoseMissingCompleteType`. The callback receives a
source location `Loc`; the source never inspects it (no main-file check),
so the `locWrittenInMainFile` argument is unused here, exactly as `Loc` is
in the C++ body beyond being received. The SFINAE guard returns `false`
without touching state; otherwise the canonical type name is queried with
an empty qualifier and a default range, and the query result is discarded:
the callback always returns `false`. -/
def maybeDiagnoseMissingCompleteType (search : String → List SymbolInfo)
    (isSFINAEContext : Bool) (locWrittenInMainFile : Bool)
    (QueryString : String) (s : ActionState) : Option (Bool × ActionState) :=
  if isSFINAEContext then
    some (false, s)
  else
    match query search s QueryString "" ⟨0, 0⟩ with
    | none => none
    | some (_, s1) => some (false, s1)

/-- One entry of the lexical-scope chain walked by `CorrectTypo`
(`S->getEntity()` and its parents): either a `NamespaceDecl` with its name
(possibly empty for an anonymous namespace) or any other declaration
context, which contributes nothing. -/
inductive ScopeCtx where
  | namespaceDecl (name : String)
  | other
deriving DecidableEq, Repr

/-- The `TypoScopeString` loop of `CorrectTypo`: walk the scope chain from
innermost to outermost, prepending `name ++ "::"` for each named namespace
to the accumulated qualifier. -/
def buildTypoScope : List ScopeCtx → String → String
  | [], acc => acc
  | .namespaceDecl n :: rest, acc =>
      buildTypoScope rest (if n.isEmpty then acc else n ++ "::" ++ acc)
  | .other :: rest, acc => buildTypoScope rest acc

/-- `TypoScopeString` built from an innermost-first scope chain. -/
def typoScopeString (chain : List ScopeCtx) : String :=
  buildTypoScope chain ""

/-- `clang::isIdentifierBody` (no dollar signs): ASCII letters, digits and
underscore. -/
def isIdentifierBody (c : Char) : Bool :=
  ('a' ≤ c && c ≤ 'z') || ('A' ≤ c && c ≤ 'Z') || ('0' ≤ c && c ≤ '9') ||
    c = '_'

/-- Length of the maximal leading run of identifier-body characters and
colons, modelling the `while (isIdentifierBody(*End) || *End == ':')` scan
of `ExtendNestedNameSpecifier`. -/
def idColonSpan : List Char → Nat
  | [] => 0
  | c :: rest =>
      if isIdentifierBody c || c = ':' then idColonSpan rest + 1 else 0

/-- `ExtendNestedNameSpecifier`: the lexed text of the range `[b, e)` of the
source buffer, extended forward past any identifier-body characters and
colons that immediately follow the range. The C++ loop reads past
`Source.end()` into the NUL-terminated underlying buffer; running off the
end of the buffer stops the scan (NUL is neither identifier body nor
colon). -/
def extendNestedNameSpecifier (buffer : List Char) (b e : Nat) : String :=
  String.mk ((buffer.take (e + idColonSpan (buffer.drop e))).drop b)

/-- The inputs `CorrectTypo` receives from the driving compiler for one
unresolved-identifier callback: the SFINAE flag, the main-file test on the
typo's location, the enclosing scope chain, the nested-name-specifier
(validity flag and begin offset), the typo token's begin offset, the offset
one past the end of the typo token (the end of the lexed token range), the
decomposed offset of `Typo.getLoc()`, whether the typo name is a plain
identifier, whether its location is a macro expansion, the fallback
spelling `Typo.getAsString()`, and the main-file source characters. -/
structure TypoInput where
  isSFINAEContext : Bool
  writtenInMainFile : Bool
  scopeChain : List ScopeCtx
  ssValid : Bool
  ssBegin : Nat
  typoBegin : Nat
  typoTokEnd : Nat
  typoLocOffset : Nat
  typoIsIdentifier : Bool
  typoLocIsMacroID : Bool
  typoAsString : String
  buffer : List Char
deriving DecidableEq, Repr

/-- The three-way branch of `CorrectTypo` computing `QueryString` and
`SymbolRange`: a valid scope specifier extends from its begin to the typo
token's end; otherwise a plain non-macro identifier extends its own token
range; otherwise `Typo.getAsString()` is used verbatim.
`CreateToolingRange` pairs the branch's begin offset with the final query
string's length. -/
def correctTypoQuery (inp : TypoInput) : String × Range :=
  if inp.ssValid then
    let q := extendNestedNameSpecifier inp.buffer inp.ssBegin inp.typoTokEnd
    (q, ⟨inp.ssBegin, q.length⟩)
  else if inp.typoIsIdentifier && !inp.typoLocIsMacroID then
    let q := extendNestedNameSpecifier inp.buffer inp.typoBegin inp.typoTokEnd
    (q, ⟨inp.typoBegin, q.length⟩)
  else
    (inp.typoAsString, ⟨inp.typoLocOffset, inp.typoAsString.length⟩)

/-- `Action::CorrectTypo`. The C++ function returns an empty
`clang::TypoCorrection()` on every path (a negative correction); its
observable effect is the state update, so the model returns the state.
SFINAE contexts and typos not written in the main file are ignored before
any query. `none` propagates a failed `query` assertion. -/
def correctTypo (search : String → List SymbolInfo) (inp : TypoInput)
    (s : ActionState) : Option ActionState :=
  if inp.isSFINAEContext then
    some s
  else if !inp.writtenInMainFile then
    some s
  else
    let scope := typoScopeString inp.scopeChain
    let qr := correctTypoQuery inp
    match query search s qr.1 scope qr.2 with
    | none => none
    | some (_, s1) => some s1

/-- The file-resolution and header-search collaborators consumed by
`minimizeInclude`: `FileManager::getFile` (file entries modelled as `Nat`
handles) and `HeaderSearch::suggestPathToFileForDiagnostics`, which returns
the suggested spelling together with the `IsSystem` flag. -/
structure HeaderSearchEnv where
  getFile : String → Option Nat
  suggestPath : Nat → String × Bool

/-- The delimiter set of `Include.trim` in `minimizeInclude`: double quote
and angle brackets. -/
def isPathDelimiter (c : Char) : Bool :=
  c = '"' || c = '<' || c = '>'

/-- `StringRef::trim` with the three path delimiters: drop every leading and
trailing character drawn from the set. -/
def trimDelimiters (s : String) : String :=
  String.mk
    (((s.toList.dropWhile isPathDelimiter).reverse.dropWhile
        isPathDelimiter).reverse)

/-- `Action::minimizeInclude`: identity when minimization is disabled;
otherwise strip the delimiters, resolve the file, fall back to the verbatim
input when resolution fails, and wrap the header-search suggestion in angle
brackets (system) or double quotes (non-system). -/
def minimizeInclude (MinimizeIncludePaths : Bool) (env : HeaderSearchEnv)
    (Include : String) : String :=
  if !MinimizeIncludePaths then
    Include
  else
    let StrippedInclude := trimDelimiters Include
    match env.getFile StrippedInclude with
    | none => Include
    | some Entry =>
        let sug := env.suggestPath Entry
        if sug.2 then "<" ++ sug.1 ++ ">" else "\"" ++ sug.1 ++ "\""

/-- The result object `IncludeFixerContext`: queried symbol, scoped
qualifiers, candidate symbols with minimized paths, and the replacement
range. -/
structure IncludeFixerContext where
  QuerySymbol : String
  SymbolScopedQualifiers : String
  SymbolCandidates : List SymbolInfo
  QuerySymbolRange : Range
deriving DecidableEq, Repr

/-- `Action::getIncludeFixerContext`: each matched symbol's file path is
wrapped in double quotes unless its first character is already `"` or `<`,
then minimized; all other fields are copied. `FilePath[0]` on an empty
`std::string` reads the NUL terminator, which is not a delimiter, so an
empty path is wrapped. -/
def getIncludeFixerContext (MinimizeIncludePaths : Bool)
    (env : HeaderSearchEnv) (s : ActionState) : IncludeFixerContext :=
  let SymbolCandidates := s.MatchedSymbols.map (fun Symbol =>
    let FilePath := Symbol.filePath
    let c0 : Char :=
      match FilePath.toList with
      | c :: _ => c
      | [] => Char.ofNat 0
    let MinimizedFilePath := minimizeInclude MinimizeIncludePaths env
      (if c0 = '"' || c0 = '<' then FilePath else "\"" ++ FilePath ++ "\"")
    { Symbol with filePath := MinimizedFilePath })
  { QuerySymbol := s.QuerySymbol
    SymbolScopedQualifiers := s.SymbolScopedQualifiers
    SymbolCandidates := SymbolCandidates
    QuerySymbolRange := s.QuerySymbolRange }

/-- `tooling::Replacement`: file path, offset, length and replacement
text. -/
structure Replacement where
  filePath : String
  offset : Nat
  length : Nat
  replacementText : String
deriving DecidableEq, Repr

/-- `UINT_MAX`, the sentinel offset anchoring the insertion at the end of
the include block. -/
def UINT_MAX : Nat := 4294967295

/-- `createInsertHeaderReplacements`. The cleanup and formatting passes
(`cleanupAroundReplacements`, `formatReplacements`) are collaborators
passed as functions; their failures (`llvm::Expected` errors, modelled as
`Except` with `String` errors) propagate unchanged. An empty header yields
an empty successful replacement set before either collaborator runs. -/
def createInsertHeaderReplacements
    (cleanup : String → List Replacement → Except String (List Replacement))
    (fmt : String → List Replacement → Except String (List Replacement))
    (Code FilePath Header : String) : Except String (List Replacement) :=
  if Header.isEmpty then
    Except.ok []
  else
    let IncludeName := "#include " ++ Header ++ "\n"
    let Insertions := [Replacement.mk FilePath UINT_MAX 0 IncludeName]
    match cleanup Code Insertions with
    | Except.error e => Except.error e
    | Except.ok CleanReplaces => fmt Code CleanReplaces

/-- The two-phase index lookup performed inside `Action::query` once the
guards have passed: search the concatenated key, and on an empty result
with a non-empty qualifier search the bare query. -/
def queryLookup (search : String → List SymbolInfo)
    (ScopedQualifiers Query : String) : List SymbolInfo :=
  let ms := search (ScopedQualifiers ++ Query)
  if ms.isEmpty && !ScopedQualifiers.isEmpty then search Query else ms

/-- Modelled from the spec's words (§4.1, for comparison with the code):
build the key as qualifier plus raw text, return its result when
non-empty; otherwise, when the qualifier is non-empty, re-query with the
bare raw text; when the qualifier is empty, the single result is final. -/
def twoPhaseLookupSpec (search : String → List SymbolInfo)
    (scopeQualifier rawText : String) : List SymbolInfo :=
  let scopedResult := search (scopeQualifier ++ rawText)
  if scopedResult ≠ [] then scopedResult
  else if scopeQualifier ≠ "" then search rawText
  else scopedResult

/-- Spec-side reading of "already delimited": the path's first character is
a double quote or an opening angle bracket (an empty path is not
delimited). -/
def startsWithDelimiter (path : String) : Bool :=
  match path.toList with
  | c :: _ => c = '"' || c = '<'
  | [] => false

/-- A sample index row used by the concrete witnesses. -/
def exSymbol : SymbolInfo := ⟨"Foo", 0, "foo.h", 1, [], 1⟩

/-- A state in which the arbiter has already resolved a symbol. -/
def resolvedState : ActionState := ⟨"Foo", "", ⟨3, 3⟩, [exSymbol]⟩

/-- The state produced by an incomplete-type callback for `Foo` against an
index that knows `Foo`, starting from the initial state. -/
def incompleteTypeResultState : ActionState := ⟨"Foo", "", ⟨0, 0⟩, [exSymbol]⟩

/-- A callback input whose typo location lies outside the main file. -/
def outOfFileTypo : TypoInput :=
  ⟨false, false, [], false, 0, 0, 0, 0, true, false, "Foo", []⟩

/-- A callback input for a plain unqualified identifier `ab` whose token
range `[0, 2)` sits in the buffer `ab::cd(`, so the forward extension grows
the query text to `ab::cd`. -/
def extendTypoInput : TypoInput :=
  ⟨false, true, [], false, 0, 0, 2, 0, true, false, "ab", "ab::cd(".toList⟩

/-- A non-empty string has `isEmpty = false`. -/
theorem string_isEmpty_false_of_ne {s : String} (h : s ≠ "") :
    s.isEmpty = false := by
  unfold String.isEmpty
  cases s with
  | mk data =>
    cases data with
    | nil => exact absurd rfl h
    | cons c cs =>
      simp [String.endPos, String.utf8ByteSize, String.utf8ByteSize.go,
        String.Pos.ext_iff]
      intro _
      have := Char.utf8Size_pos c
      omega

/-- Full characterization of a non-short-circuited `query` call: the three
fields are overwritten by the arguments and `MatchedSymbols` becomes the
two-phase lookup result. -/
theorem query_run_eq (search : String → List SymbolInfo) (s : ActionState)
    (Query ScopedQualifiers : String) (r : Range)
    (hq : Query ≠ "") (hm : s.MatchedSymbols = []) :
    query search s Query ScopedQualifiers r =
      some (!(queryLookup search ScopedQualifiers Query).isEmpty,
        ⟨Query, ScopedQualifiers, r,
          queryLookup search ScopedQualifiers Query⟩) := by
  simp [query, queryLookup, string_isEmpty_false_of_ne hq, hm]

/-- The code's lookup agrees with the spec-worded two-phase lookup. -/
theorem lookup_eq_spec (search : String → List SymbolInfo)
    (scopeQualifier rawText : String) :
    queryLookup search scopeQualifier rawText =
      twoPhaseLookupSpec search scopeQualifier rawText := by
  unfold queryLookup twoPhaseLookupSpec
  by_cases h1 : search (scopeQualifier ++ rawText) = []
  · by_cases h2 : scopeQualifier = ""
    · simp [h1, h2]
    · simp [h1, h2, string_isEmpty_false_of_ne h2]
  · simp [h1]

/-- C1: once `MatchedSymbols` is non-empty, every subsequent (well-formed,
non-empty) query call returns `false` and leaves the whole arbiter state —
`QuerySymbol`, `SymbolScopedQualifiers`, `QuerySymbolRange` and
`MatchedSymbols` — unchanged, so only the first query that yields a
non-empty index result contributes candidates. -/
theorem query_first_success_wins (search : String → List SymbolInfo)
    (s : ActionState) (Query ScopedQualifiers : String) (r : Range)
    (hq : Query ≠ "") (hm : s.MatchedSymbols ≠ []) :
    query search s Query ScopedQualifiers r = some (false, s) := by
  simp [query, string_isEmpty_false_of_ne hq, hm]

/-- C1 witness: against a resolved state, a fresh query for `Bar` is a
no-op returning `false`. -/
theorem query_first_success_wins_witness :
    query (fun _ => [exSymbol]) resolvedState "Bar" "ns::" ⟨10, 3⟩ =
      some (false, resolvedState) :=
  query_first_success_wins (fun _ => [exSymbol]) resolvedState "Bar" "ns::"
    ⟨10, 3⟩ (by decide) (by decide)

/-- C2: a non-short-circuited query searches the index with the
concatenated key first; on an empty result with a non-empty scope
qualifier it re-searches with the bare raw text; with an empty qualifier
the single result is final — exactly the spec-worded `twoPhaseLookupSpec`,
whose result (and emptiness test) the call returns. -/
theorem query_two_phase_lookup (search : String → List SymbolInfo)
    (s : ActionState) (rawText scopeQualifier : String) (r : Range)
    (hq : rawText ≠ "") (hm : s.MatchedSymbols = []) :
    query search s rawText scopeQualifier r =
      some (!(twoPhaseLookupSpec search scopeQualifier rawText).isEmpty,
        { QuerySymbol := rawText
          SymbolScopedQualifiers := scopeQualifier
          QuerySymbolRange := r
          MatchedSymbols := twoPhaseLookupSpec search scopeQualifier rawText }) := by
  rw [query_run_eq search s rawText scopeQualifier r hq hm, lookup_eq_spec]

/-- C2 witness: a query for `foo` under qualifier `a::b::` against an empty
index runs both phases and ends with no matches. -/
theorem query_two_phase_lookup_witness :
    query (fun _ => []) initialActionState "foo" "a::b::" ⟨5, 3⟩ =
      some (!(twoPhaseLookupSpec (fun _ => []) "a::b::" "foo").isEmpty,
        { QuerySymbol := "foo"
          SymbolScopedQualifiers := "a::b::"
          QuerySymbolRange := ⟨5, 3⟩
          MatchedSymbols := twoPhaseLookupSpec (fun _ => []) "a::b::" "foo" }) :=
  query_two_phase_lookup (fun _ => []) initialActionState "foo" "a::b::"
    ⟨5, 3⟩ (by decide) rfl

/-- C3 counterexample: the incomplete-type callback performs no
source-location check — with the location outside the main file
(`locWrittenInMainFile = false`) it still queries the index and mutates
the arbiter state, contradicting the claim that such references are
ignored entirely by both callbacks. -/
theorem incomplete_type_callback_ignores_location :
    maybeDiagnoseMissingCompleteType (fun _ => [exSymbol]) false false "Foo"
        initialActionState = some (false, incompleteTypeResultState) ∧
      incompleteTypeResultState ≠ initialActionState := by decide

/-- C3 amended: only the unresolved-identifier callback ignores references
written outside the main file (state unchanged for every index, hence no
query; the returned `TypoCorrection` is always the negative one); the
incomplete-type callback's behaviour is independent of whether the
location is in the main file. -/
theorem main_file_filter_correctTypo_only (search : String → List SymbolInfo)
    (inp : TypoInput) (s : ActionState)
    (h : inp.writtenInMainFile = false) :
    correctTypo search inp s = some s ∧
    ∀ (search2 : String → List SymbolInfo) (sf : Bool) (q : String)
      (s2 : ActionState),
      maybeDiagnoseMissingCompleteType search2 sf true q s2 =
        maybeDiagnoseMissingCompleteType search2 sf false q s2 := by
  constructor
  · cases hsf : inp.isSFINAEContext <;> simp [correctTypo, h, hsf]
  · intro _ _ _ _
    rfl

/-- C3 amended witness: an out-of-main-file typo callback leaves the
initial state untouched even though the index knows the symbol. -/
theorem main_file_filter_correctTypo_only_witness :
    correctTypo (fun _ => [exSymbol]) outOfFileTypo initialActionState =
      some initialActionState :=
  (main_file_filter_correctTypo_only (fun _ => [exSymbol]) outOfFileTypo
    initialActionState rfl).1

/-- C4: every query call that passes the assertion and the already-resolved
guard overwrites the stored symbol, range and qualifier with the call's
arguments — for every index, including one returning zero candidates — and
when the lookup left `MatchedSymbols` empty, a later call overwrites the
fields again. -/
theorem query_persists_fields (search : String → List SymbolInfo)
    (s : ActionState) (rawText scopeText : String) (r : Range)
    (hq : rawText ≠ "") (hm : s.MatchedSymbols = []) :
    ∃ b s1, query search s rawText scopeText r = some (b, s1) ∧
      s1.QuerySymbol = rawText ∧ s1.QuerySymbolRange = r ∧
      s1.SymbolScopedQualifiers = scopeText ∧
      (s1.MatchedSymbols = [] → ∀ q2 sq2 r2, q2 ≠ "" →
        ∃ b2 s2, query search s1 q2 sq2 r2 = some (b2, s2) ∧
          s2.QuerySymbol = q2 ∧ s2.QuerySymbolRange = r2 ∧
          s2.SymbolScopedQualifiers = sq2) := by
  refine ⟨_, _, query_run_eq search s rawText scopeText r hq hm,
    rfl, rfl, rfl, ?_⟩
  intro hm2 q2 sq2 r2 hq2
  exact ⟨_, _, query_run_eq search _ q2 sq2 r2 hq2 hm2, rfl, rfl, rfl⟩

/-- C4 witness: against an index with no candidates, the fields are still
persisted, and a later call can overwrite them. -/
theorem query_persists_fields_witness :
    ∃ b s1, query (fun _ => []) initialActionState "x" "ns::" ⟨5, 1⟩ =
        some (b, s1) ∧
      s1.QuerySymbol = "x" ∧ s1.QuerySymbolRange = ⟨5, 1⟩ ∧
      s1.SymbolScopedQualifiers = "ns::" ∧
      (s1.MatchedSymbols = [] → ∀ q2 sq2 r2, q2 ≠ "" →
        ∃ b2 s2, query (fun _ => []) s1 q2 sq2 r2 = some (b2, s2) ∧
          s2.QuerySymbol = q2 ∧ s2.QuerySymbolRange = r2 ∧
          s2.SymbolScopedQualifiers = sq2) :=
  query_persists_fields (fun _ => []) initialActionState "x" "ns::" ⟨5, 1⟩
    (by decide) rfl

/-- C5 counterexample: an empty-text query against the fresh state does not
return `false` with the state unchanged — it trips the
`assert(!Query.empty())` at the head of `Action::query` (modelled as
`none`), so the code has no defensive soft-failure path for empty query
text. -/
theorem empty_query_not_soft_failure :
    query (fun _ => []) initialActionState "" "" ⟨0, 0⟩ ≠
      some (false, initialActionState) := by decide

/-- C5 amended: empty query text is excluded by an assertion precondition
rather than handled defensively — for every index, state, qualifier and
range, an empty-text call fails the assertion (no soft `false` return, and
no state is produced at all). -/
theorem empty_query_fails_assertion (search : String → List SymbolInfo)
    (s : ActionState) (sq : String) (r : Range) :
    query search s "" sq r = none := rfl

/-- C6: the context builder maps each matched symbol, in the index's order,
to a candidate carrying the original name, kind, line, contexts and
occurrence count, and a file path obtained by minimizing the stored path
as-is when it already begins with a quote or angle bracket, and the
double-quoted wrapping of it otherwise; the queried symbol, qualifiers and
range are copied. -/
theorem context_builder_no_double_wrap (m : Bool) (env : HeaderSearchEnv)
    (s : ActionState) :
    getIncludeFixerContext m env s =
      { QuerySymbol := s.QuerySymbol
        SymbolScopedQualifiers := s.SymbolScopedQualifiers
        SymbolCandidates := s.MatchedSymbols.map (fun sym =>
          { sym with filePath := (minimizeInclude m env
              (if startsWithDelimiter sym.filePath then sym.filePath
               else "\"" ++ sym.filePath ++ "\"")) })
        QuerySymbolRange := s.QuerySymbolRange } := by
  unfold getIncludeFixerContext
  simp only [IncludeFixerContext.mk.injEq, true_and, and_true]
  apply List.map_congr_left
  intro sym _
  unfold startsWithDelimiter
  cases h : sym.filePath.toList with
  | nil => simp [h]
  | cons c rest => simp [h]

/-- C7: when minimization is enabled but the delimiter-stripped path does
not resolve to a file, `minimizeInclude` returns the original input
unchanged, delimiters included, and never signals an error. -/
theorem minimizeInclude_fail_open (env : HeaderSearchEnv) (Include : String)
    (h : env.getFile (trimDelimiters Include) = none) :
    minimizeInclude true env Include = Include := by
  simp [minimizeInclude, h]

/-- C7 witness: a quoted path to a missing file survives minimization
verbatim. -/
theorem minimizeInclude_fail_open_witness :
    minimizeInclude true ⟨fun _ => none, fun _ => ("", false)⟩
      "\"missing.h\"" = "\"missing.h\"" :=
  minimizeInclude_fail_open ⟨fun _ => none, fun _ => ("", false)⟩
    "\"missing.h\"" rfl

/-- C8: with minimization disabled, `minimizeInclude` is the identity on
every input path, for every file-resolution and header-search
collaborator — neither is consulted. -/
theorem minimizeInclude_disabled_identity (env : HeaderSearchEnv)
    (Include : String) :
    minimizeInclude false env Include = Include := rfl

/-- C9: inserting an empty header spelling yields a successful empty
replacement set for every source text, file path, and every cleanup and
formatting collaborator — neither collaborator is invoked. -/
theorem createInsertHeaderReplacements_empty_header
    (cleanup fmt : String → List Replacement → Except String (List Replacement))
    (Code FilePath : String) :
    createInsertHeaderReplacements cleanup fmt Code FilePath "" =
      Except.ok [] := rfl

/-- C10: for a plain unqualified identifier reference (no valid
nested-name-specifier) whose location is not a macro expansion, the
forward text-extension heuristic is applied to the reported token range:
the recorded query symbol is the extended text (which may grow past the
token over identifier characters and colons) and the recorded range starts
at the token's begin with the extended text's length. -/
theorem correctTypo_extends_unqualified_identifier
    (search : String → List SymbolInfo) (inp : TypoInput) (s : ActionState)
    (hsf : inp.isSFINAEContext = false) (hmf : inp.writtenInMainFile = true)
    (hss : inp.ssValid = false) (hid : inp.typoIsIdentifier = true)
    (hmac : inp.typoLocIsMacroID = false) (hm : s.MatchedSymbols = [])
    (hne : extendNestedNameSpecifier inp.buffer inp.typoBegin inp.typoTokEnd ≠ "") :
    ∃ s1, correctTypo search inp s = some s1 ∧
      s1.QuerySymbol =
        extendNestedNameSpecifier inp.buffer inp.typoBegin inp.typoTokEnd ∧
      s1.QuerySymbolRange = ⟨inp.typoBegin,
        (extendNestedNameSpecifier inp.buffer inp.typoBegin
          inp.typoTokEnd).length⟩ := by
  unfold correctTypo correctTypoQuery
  rw [hsf, hmf, hss, hid, hmac]
  simp only [Bool.false_eq_true, if_false, Bool.not_false, Bool.and_true,
    if_true]
  rw [query_run_eq search s _ _ _ hne hm]
  exact ⟨_, rfl, rfl, rfl⟩

/-- C10 witness: the unqualified identifier token `ab` at `[0, 2)` in the
buffer `ab::cd(` is grown to the query string `ab::cd`. -/
theorem correctTypo_extends_unqualified_identifier_witness :
    ∃ s1, correctTypo (fun _ => []) extendTypoInput initialActionState =
        some s1 ∧
      s1.QuerySymbol = "ab::cd" ∧ s1.QuerySymbolRange = ⟨0, 6⟩ := by
  have h := correctTypo_extends_unqualified_identifier (fun _ => [])
    extendTypoInput initialActionState rfl rfl rfl rfl rfl rfl (by decide)
  exact h

end IncludeFixer
